import Mathlib

/-!
Verification of the session-management core of the medical-transcription relay
backend (src/backend/main.go): the transcript reconciler (dedup/merge of final
transcript fragments), the bounded audio ingress queue, the audio-forwarding
loop towards the recognition service, and the archiver that persists the
joined transcript to object storage.

Strings are modelled as `List Char` (Go strings are byte sequences; all the
reconciler logic is per-character scanning, so a character list is a faithful
shallow embedding for the operations used: equality, substring containment,
first-occurrence removal, whitespace trimming, joining).
-/

/-- Go `strings.HasPrefix`-style test: `startsWith s pat` is true when `pat`
occurs at the very beginning of `s`. -/
def startsWith : List Char → List Char → Bool
  | _, [] => true
  | [], _ :: _ => false
  | c :: rest, p :: ps => (c = p) && startsWith rest ps

/-- Go `strings.Contains(s, sub)` (main.go lines 296 and 313): scan `s` left to
right and report whether `sub` occurs at some position. -/
def containsSub : List Char → List Char → Bool
  | [], sub => startsWith [] sub
  | c :: rest, sub => startsWith (c :: rest) sub || containsSub rest sub

/-- Go `strings.Replace(s, pat, "", 1)` (main.go line 301): remove the first
(leftmost) occurrence of `pat` from `s`; if `pat` does not occur, `s` is
returned unchanged.  With `pat = []` nothing is removed, matching Go's
behaviour of replacing the empty string with the empty string. -/
def removeFirst : List Char → List Char → List Char
  | [], _ => []
  | c :: rest, pat =>
      if startsWith (c :: rest) pat then (c :: rest).drop pat.length
      else c :: removeFirst rest pat

/-- Go `unicode.IsSpace`: in the Latin-1 range '\t' '\n' '\v' '\f' '\r' ' '
U+0085 U+00A0, and above it the runes with the Unicode White_Space property:
U+1680, U+2000..U+200A, U+2028, U+2029, U+202F, U+205F, U+3000. -/
def isSpaceGo (c : Char) : Bool :=
  c.toNat = 9 || c.toNat = 10 || c.toNat = 11 || c.toNat = 12 || c.toNat = 13 ||
  c.toNat = 32 || c.toNat = 133 || c.toNat = 160 ||
  c.toNat = 0x1680 ||
  (decide (0x2000 ≤ c.toNat) && decide (c.toNat ≤ 0x200A)) ||
  c.toNat = 0x2028 || c.toNat = 0x2029 || c.toNat = 0x202F ||
  c.toNat = 0x205F || c.toNat = 0x3000

/-- Go `strings.TrimSpace` (main.go line 301): drop whitespace from both ends. -/
def trimSpace (s : List Char) : List Char :=
  ((s.dropWhile isSpaceGo).reverse.dropWhile isSpaceGo).reverse

/-- Go `strings.Join(l, " ")` (main.go line 389). -/
def joinWithSpace : List (List Char) → List Char
  | [] => []
  | [s] => s
  | s :: rest => s ++ ' ' :: joinWithSpace rest

/-- The mutable transcript state of a `TranscriptionSession` (main.go lines
56-57): the ordered list of accepted final segments and the text of the most
recently accepted segment (`lastTranscript`). -/
structure ReconcilerState where
  transcripts : List (List Char)
  lastTranscript : List Char
deriving DecidableEq, Repr

/-- The state a session starts in (main.go lines 171-172):
no segments, empty `lastTranscript`. -/
def initialSession : ReconcilerState := ⟨[], []⟩

/-- The last-3 window scan of main.go lines 312-318: walk the accepted
segments most-recent-first, at most three of them, and report whether any is a
substring of the incoming text (the Go loop breaks at the first hit; for the
resulting boolean this is `any` over the reversed three-element window). -/
def recentWindowHit (transcripts : List (List Char)) (text : List Char) : Bool :=
  (transcripts.reverse.take 3).any (fun seg => containsSub text seg)

/-- The final-transcript branch of `processTranscriptEvent` (main.go lines
280-335), as a function of the session's transcript state and the incoming
final text.  Returns the new state and `some t` when a segment `t` was
accepted (and a `final` message with text `t` is sent), `none` when the text
was discarded.  Branches, in the source's order:
empty text (line 280); `lastTranscript` empty, so the dedup block is skipped
and the text accepted verbatim (line 291 guard false, lines 322-325); exact
duplicate (lines 293-295); extension of `lastTranscript` — remove its first
occurrence, trim, accept the remainder if non-empty (lines 296-308);
containment of one of the last three accepted segments (lines 309-319);
otherwise accept verbatim (lines 322-325). -/
def processFinalTranscript (st : ReconcilerState) (text : List Char) :
    ReconcilerState × Option (List Char) :=
  if text = [] then (st, none)
  else if st.lastTranscript = [] then
    (⟨st.transcripts ++ [text], text⟩, some text)
  else if text = st.lastTranscript then (st, none)
  else if containsSub text st.lastTranscript then
    let newPart := trimSpace (removeFirst text st.lastTranscript)
    if newPart = [] then (st, none)
    else (⟨st.transcripts ++ [newPart], newPart⟩, some newPart)
  else if recentWindowHit st.transcripts text then (st, none)
  else (⟨st.transcripts ++ [text], text⟩, some text)

/-- One transcript result from the recognition service (main.go lines 275-284):
`interim` models a result with `IsPartial = true`, `finalRes` one with
`IsPartial = false`; the payload is the top alternative's text. -/
inductive TranscriptResult where
  | interim (text : List Char)
  | finalRes (text : List Char)
deriving DecidableEq, Repr

/-- Outbound client message (`WSMessage`, main.go lines 44-49): the `type`
discriminant string plus the optional `text` and `key` payload fields. -/
structure WSMessage where
  type : List Char
  text : List Char
  key : List Char
deriving DecidableEq, Repr

/-- A server message of type "partial" carrying an interim hypothesis. -/
def interimMessage (t : List Char) : WSMessage := ⟨"partial".toList, t, []⟩

/-- A server message of type "final" carrying an accepted segment. -/
def finalMessage (t : List Char) : WSMessage := ⟨"final".toList, t, []⟩

/-- A server message of type "saved" carrying the storage key. -/
def savedMessage (k : List Char) : WSMessage := ⟨"saved".toList, [], k⟩

/-- A server message of type "error" carrying a fault description. -/
def errorMessage (t : List Char) : WSMessage := ⟨"error".toList, t, []⟩

/-- `processTranscriptEvent` for one result (main.go lines 274-345): an empty
text is skipped (line 280); an interim result is forwarded as a "partial"
message without touching the state (lines 336-343); a final result goes
through the reconciler and, when accepted, produces one "final" message
(lines 284-335). -/
def processResult (st : ReconcilerState) : TranscriptResult → ReconcilerState × List WSMessage
  | .interim t => (st, if t = [] then [] else [interimMessage t])
  | .finalRes t =>
      ((processFinalTranscript st t).1,
        match (processFinalTranscript st t).2 with
        | none => []
        | some u => [finalMessage u])

/-- Folding `processResult` over the sequence of results delivered by the
recognition event stream, accumulating the messages sent to the client. -/
def processEvents (st : ReconcilerState) : List TranscriptResult → ReconcilerState × List WSMessage
  | [] => (st, [])
  | ev :: rest =>
      ((processEvents (processResult st ev).1 rest).1,
        (processResult st ev).2 ++ (processEvents (processResult st ev).1 rest).2)

/-- One PCM audio frame, an opaque byte buffer. -/
abbrev AudioFrame := List UInt8

/-- Capacity of the audio ingress channel: `make(chan []byte, 100)`
(main.go line 200). -/
def audioChanCapacity : Nat := 100

/-- The non-blocking forward of a binary frame into the audio channel
(main.go lines 226-235): the `select` with a `default` branch enqueues when
the channel has room and otherwise drops the frame, leaving the queue
unchanged; the returned boolean reports whether the frame was enqueued.
The `ctx.Done` arm never fires while frames are still being pushed, because
the session context is cancelled only after the read loop has exited
(main.go line 240). -/
def pushFrame (q : List AudioFrame) (f : AudioFrame) : List AudioFrame × Bool :=
  if q.length < audioChanCapacity then (q ++ [f], true) else (q, false)

/-- One outcome of the `select` at the head of the `sendAudioToTranscribe`
loop (main.go lines 351-379): a frame received from the audio channel
(together with whether the subsequent `Send` to the recognition service
succeeds), the observation that the channel is closed, the `done` channel
firing, or the session context being cancelled.  When several cases are ready
Go picks one of them nondeterministically, so an execution of the loop is an
arbitrary list of outcomes. -/
inductive SelectOutcome where
  | frame (f : AudioFrame) (sendOk : Bool)
  | closed
  | doneSig
  | ctxDone
deriving DecidableEq, Repr

/-- How a run of the `sendAudioToTranscribe` loop ended. -/
inductive LoopExit where
  | sawClosed
  | sawDone
  | sawCtxDone
  | sendFailed
  | ranOut
deriving DecidableEq, Repr

/-- The `sendAudioToTranscribe` loop (main.go lines 348-381) over a list of
select outcomes: on channel closure it sends one empty-payload chunk (the
end-of-stream marker, lines 355-361) and returns; on a received frame it
sends the chunk and, if the transport send fails, logs and returns without
any message to the client (lines 370-373); on `done` or context cancellation
it returns immediately (lines 375-378).  Returns the list of payloads sent to
the recognition service, in order, and the exit cause. -/
def sendAudioRun : List SelectOutcome → List AudioFrame × LoopExit
  | [] => ([], .ranOut)
  | .closed :: _ => ([[]], .sawClosed)
  | .doneSig :: _ => ([], .sawDone)
  | .ctxDone :: _ => ([], .sawCtxDone)
  | .frame f true :: rest => ((f :: (sendAudioRun rest).1), (sendAudioRun rest).2)
  | .frame f false :: _ => ([f], .sendFailed)

/-- Number of empty payloads (end-of-stream markers) among the sends. -/
def countEmptyPayload : List AudioFrame → Nat
  | [] => 0
  | f :: rest => (if f = [] then 1 else 0) + countEmptyPayload rest

/-- All frame outcomes in the list carry a non-empty payload (the browser
client only forwards non-empty PCM chunks). -/
def framesNonEmpty : List SelectOutcome → Bool
  | [] => true
  | .frame f _ :: rest => (decide (f ≠ [])) && framesNonEmpty rest
  | _ :: rest => framesNonEmpty rest

/-- A well-formed execution of the audio-forward task: the loop can observe
channel closure only if the producer closed the channel in this execution,
and the loop actually returned (did not merely run out of scheduled
outcomes). -/
def AudioRunWf (queueClosed : Bool) (outcomes : List SelectOutcome) : Prop :=
  (SelectOutcome.closed ∈ outcomes → queueClosed = true) ∧
  (sendAudioRun outcomes).2 ≠ LoopExit.ranOut

/-- Result of the S3 `PutObject` call, as seen by `saveToS3`. -/
inductive PutResult where
  | success
  | failure
deriving DecidableEq, Repr

/-- What a run of the archiver did: whether a storage write was attempted and
which messages were sent to the client. -/
structure SaveOutcome where
  putAttempted : Bool
  messages : List WSMessage
deriving DecidableEq, Repr

/-- `saveToS3` (main.go lines 383-426): join the accepted segments with single
spaces; if the joined text is empty return without contacting storage; else
attempt the `PutObject` write, and send one "error" message on failure or one
"saved" message carrying the storage key on success. -/
def saveToS3 (transcripts : List (List Char)) (put : PutResult) (key : List Char) :
    SaveOutcome :=
  if joinWithSpace transcripts = [] then ⟨false, []⟩
  else match put with
    | .failure => ⟨true, [errorMessage ("Failed to save transcription".toList)]⟩
    | .success => ⟨true, [savedMessage key]⟩

/-- The end-of-session persistence step of `handleConnection` (main.go lines
244-246): `saveToS3` is invoked only when at least one segment was accepted. -/
def sessionEndSave (st : ReconcilerState) (put : PutResult) (key : List Char) :
    SaveOutcome :=
  if st.transcripts.length > 0 then saveToS3 st.transcripts put key else ⟨false, []⟩

/-- The inputs and oracle outcomes that determine one session's client-visible
message trace: whether `StartMedicalStreamTranscription` succeeded, the select
outcomes scheduled for the audio-forward loop, the transcript results
delivered by the event stream, and the result of the final storage write. -/
structure SessionRun where
  startOk : Bool
  audioOutcomes : List SelectOutcome
  results : List TranscriptResult
  put : PutResult
  key : List Char
deriving DecidableEq, Repr

/-- The full list of messages `handleConnection` sends to the client
(main.go lines 178-247): on stream-start failure exactly one "error" message
and nothing else (lines 192-197); otherwise the relay messages produced by
`processTranscriptEvent` followed by the archiver's messages.  The
audio-forward task contributes nothing here: its transport-failure branch
only logs (line 371) and never writes to the client connection. -/
def sessionMessages (r : SessionRun) : List WSMessage :=
  if r.startOk then
    (processEvents initialSession r.results).2 ++
      (sessionEndSave (processEvents initialSession r.results).1 r.put r.key).messages
  else [errorMessage ("Failed to start transcription".toList)]

/-- Number of "error"-typed messages in a trace. -/
def countErrors : List WSMessage → Nat
  | [] => 0
  | m :: rest => (if m.type = "error".toList then 1 else 0) + countErrors rest

/-- The invariant tying `lastTranscript` to the segment list (claim C10):
`lastTranscript` is empty exactly when no segment has been accepted, and
otherwise equals the last accepted segment. -/
def ReconcilerInv (st : ReconcilerState) : Prop :=
  (st.lastTranscript = [] ↔ st.transcripts = []) ∧
  (st.transcripts ≠ [] → st.transcripts.getLast? = some st.lastTranscript)

/-! ## Helper lemmas -/

/-- Any list starts with the empty pattern. -/
theorem startsWith_nil_pat (s : List Char) : startsWith s [] = true := by
  cases s <;> rfl

/-- The empty pattern occurs in every string, matching Go's
`strings.Contains(s, "") = true`. -/
theorem containsSub_pat_nil (s : List Char) : containsSub s [] = true := by
  cases s <;> rfl

/-- A non-empty pattern never occurs in the empty string. -/
theorem containsSub_nil_sub {sub : List Char} (h : sub ≠ []) :
    containsSub [] sub = false := by
  cases sub with
  | nil => exact absurd rfl h
  | cons c cs => rfl

/-- Every branch of the reconciler either leaves the whole state unchanged or
moves to the state that appends one non-empty segment and records it as the
last accepted one. -/
theorem processFinalTranscript_cases (st : ReconcilerState) (T : List Char) :
    (processFinalTranscript st T).1 = st ∨
    ∃ t, t ≠ [] ∧ (processFinalTranscript st T).1 = ⟨st.transcripts ++ [t], t⟩ := by
  by_cases h1 : T = []
  · left; simp [processFinalTranscript, h1]
  by_cases h2 : st.lastTranscript = []
  · right
    exact ⟨T, h1, by simp [processFinalTranscript, h1, h2]⟩
  by_cases h3 : T = st.lastTranscript
  · left; simp [processFinalTranscript, h1, h2, h3]
  by_cases h4 : containsSub T st.lastTranscript = true
  · by_cases h5 : trimSpace (removeFirst T st.lastTranscript) = []
    · left; simp [processFinalTranscript, h1, h2, h3, h4, h5]
    · right
      exact ⟨trimSpace (removeFirst T st.lastTranscript), h5,
        by simp [processFinalTranscript, h1, h2, h3, h4, h5]⟩
  by_cases h6 : recentWindowHit st.transcripts T = true
  · left; simp [processFinalTranscript, h1, h2, h3, h4, h6]
  · right
    exact ⟨T, h1, by simp [processFinalTranscript, h1, h2, h3, h4, h6]⟩

/-- Lifting `processFinalTranscript_cases` to a single transcript result. -/
theorem processResult_state_cases (st : ReconcilerState) (ev : TranscriptResult) :
    (processResult st ev).1 = st ∨
    ∃ t, t ≠ [] ∧ (processResult st ev).1 = ⟨st.transcripts ++ [t], t⟩ := by
  cases ev with
  | interim t => left; rfl
  | finalRes t => exact processFinalTranscript_cases st t

/-! ## Claim theorems -/

/-- Claim C1: when a non-empty `lastTranscript` is a proper substring of the
incoming final text, the reconciler removes its first occurrence, trims the
surrounding whitespace, and, if the remainder `R` is non-empty, appends
exactly `R` (not the whole text) and sets `lastTranscript` to `R`; if the
remainder is empty, nothing is appended and the state is unchanged. -/
theorem c1_extension_merge (st : ReconcilerState) (T R : List Char)
    (hlast : st.lastTranscript ≠ [])
    (hne : T ≠ st.lastTranscript)
    (hcont : containsSub T st.lastTranscript = true)
    (hR : R = trimSpace (removeFirst T st.lastTranscript)) :
    (R ≠ [] → processFinalTranscript st T =
      (⟨st.transcripts ++ [R], R⟩, some R)) ∧
    (R = [] → processFinalTranscript st T = (st, none)) := by
  have hT : T ≠ [] := by
    intro h
    subst h
    rw [containsSub_nil_sub hlast] at hcont
    exact Bool.false_ne_true hcont
  have key : processFinalTranscript st T =
      if R = [] then (st, none)
      else (⟨st.transcripts ++ [R], R⟩, some R) := by
    rw [hR]
    simp only [processFinalTranscript, if_neg hT, if_neg hlast, if_neg hne, hcont]
    simp
  constructor
  · intro hRne
    rw [key, if_neg hRne]
  · intro hRe
    rw [key, if_pos hRe]

/-- Claim C1 witness: the spec's worked example, with `lastAccepted`
"patient reports pain" the incoming final "patient reports pain in left arm"
yields only "in left arm" as the new segment and as `lastAccepted`. -/
theorem c1_witness :
    processFinalTranscript
        ⟨["patient reports pain".toList], "patient reports pain".toList⟩
        ("patient reports pain in left arm".toList) =
      (⟨["patient reports pain".toList] ++ ["in left arm".toList],
        "in left arm".toList⟩, some ("in left arm".toList)) :=
  (c1_extension_merge
      ⟨["patient reports pain".toList], "patient reports pain".toList⟩
      ("patient reports pain in left arm".toList) ("in left arm".toList)
      (by decide) (by decide) (by decide) (by decide)).1 (by decide)

/-- Claim C2: when a non-empty final text differs from `lastTranscript` and
does not contain it, the outcome is decided exactly by the scan of the three
most recently accepted segments (most recent first): the text is discarded
with the state unchanged precisely when one of those segments is a substring
of the text, and accepted verbatim otherwise; segments outside the
three-element window play no part in the decision. -/
theorem c2_last3_window (st : ReconcilerState) (T : List Char)
    (hT : T ≠ [])
    (hne : T ≠ st.lastTranscript)
    (hcont : containsSub T st.lastTranscript = false) :
    (recentWindowHit st.transcripts T = true →
      processFinalTranscript st T = (st, none)) ∧
    (recentWindowHit st.transcripts T = false →
      processFinalTranscript st T = (⟨st.transcripts ++ [T], T⟩, some T)) := by
  have hlast : st.lastTranscript ≠ [] := by
    intro h
    rw [h, containsSub_pat_nil] at hcont
    exact absurd hcont (by decide)
  have key : processFinalTranscript st T =
      if recentWindowHit st.transcripts T = true then (st, none)
      else (⟨st.transcripts ++ [T], T⟩, some T) := by
    simp only [processFinalTranscript, if_neg hT, if_neg hlast, if_neg hne, hcont]
    simp
  constructor
  · intro h
    rw [key, if_pos h]
  · intro h
    rw [key, if_neg (by simp [h])]

/-- Claim C2 witness: the spec's worked example — with accepted history
["A", "B", "C"] the final text "contains B inside it" is discarded because
it contains the segment "B" from the last-3 window. -/
theorem c2_witness :
    processFinalTranscript
        ⟨["A".toList, "B".toList, "C".toList], "C".toList⟩
        ("contains B inside it".toList) =
      (⟨["A".toList, "B".toList, "C".toList], "C".toList⟩, none) :=
  (c2_last3_window
      ⟨["A".toList, "B".toList, "C".toList], "C".toList⟩
      ("contains B inside it".toList)
      (by decide) (by decide) (by decide)).1 (by decide)

/-- Claim C3 counterexample: reconciling the same non-empty final text twice
in a row is NOT always idempotent.  From the initial state, accepting "ab"
(reaching the legitimate session state with segment list ["ab"] and
`lastTranscript` "ab") and then submitting "ab ab" twice in a row appends a
segment BOTH times: on each submission the extension branch strips the first
"ab", trims, and accepts the remainder "ab", so the second, identical
submission is not an exact duplicate of `lastTranscript` and is not
discarded — the list gains two segments, not one. -/
theorem c3_counterexample :
    processFinalTranscript initialSession ("ab".toList) =
      (⟨["ab".toList], "ab".toList⟩, some ("ab".toList)) ∧
    (processFinalTranscript ⟨["ab".toList], "ab".toList⟩
        ("ab ab".toList)).1.transcripts.length = 2 ∧
    (processFinalTranscript
        (processFinalTranscript ⟨["ab".toList], "ab".toList⟩ ("ab ab".toList)).1
        ("ab ab".toList)).2 ≠ none ∧
    (processFinalTranscript
        (processFinalTranscript ⟨["ab".toList], "ab".toList⟩ ("ab ab".toList)).1
        ("ab ab".toList)).1.transcripts.length = 3 := by
  decide

/-- Claim C3 (amended): whenever the first submission of a non-empty final
text is accepted verbatim — so `lastTranscript` becomes the text itself, as
happens from the initial state — the immediately repeated submission is an
exact duplicate and is discarded: the state is unchanged by the second call
and the segment list has gained exactly the one segment from the first call. -/
theorem c3_idempotent_after_verbatim_accept (st : ReconcilerState) (T : List Char)
    (hT : T ≠ [])
    (hacc : processFinalTranscript st T = (⟨st.transcripts ++ [T], T⟩, some T)) :
    processFinalTranscript (processFinalTranscript st T).1 T =
      ((processFinalTranscript st T).1, none) ∧
    (processFinalTranscript (processFinalTranscript st T).1 T).1.transcripts =
      st.transcripts ++ [T] := by
  have step : processFinalTranscript ⟨st.transcripts ++ [T], T⟩ T =
      (⟨st.transcripts ++ [T], T⟩, none) := by
    simp [processFinalTranscript, hT]
  rw [hacc]
  exact ⟨step, by rw [step]⟩

/-- Claim C3 witness: from the initial state, "hello there" accepted once and
then discarded as an exact duplicate on the repeated submission. -/
theorem c3_witness :
    processFinalTranscript
        (processFinalTranscript initialSession ("hello there".toList)).1
        ("hello there".toList) =
      ((processFinalTranscript initialSession ("hello there".toList)).1, none) :=
  (c3_idempotent_after_verbatim_accept initialSession ("hello there".toList)
      (by decide) (by decide)).1

/-- Claim C6: the audio ingress channel has fixed capacity 100, a push onto a
full queue returns without enqueueing (the producer is not blocked, the frame
is discarded, the queue contents are unchanged), and a push onto a non-full
queue appends the frame. -/
theorem c6_queue_overflow_policy (q : List AudioFrame) (f : AudioFrame) :
    audioChanCapacity = 100 ∧
    (audioChanCapacity ≤ q.length → pushFrame q f = (q, false)) ∧
    (q.length < audioChanCapacity → pushFrame q f = (q ++ [f], true)) := by
  refine ⟨rfl, ?_, ?_⟩
  · intro h
    simp only [pushFrame]
    rw [if_neg (by omega)]
  · intro h
    simp only [pushFrame]
    rw [if_pos h]

/-- Claim C6 witness: a push onto a queue holding 100 frames drops the frame
and leaves the queue unchanged; a push onto an empty queue enqueues. -/
theorem c6_witness :
    pushFrame (List.replicate 100 ([] : AudioFrame)) [1] =
      (List.replicate 100 [], false) ∧
    pushFrame ([] : List AudioFrame) [1] = ([] ++ [[1]], true) :=
  ⟨(c6_queue_overflow_policy (List.replicate 100 []) [1]).2.1 (by simp [audioChanCapacity]),
   (c6_queue_overflow_policy [] [1]).2.2 (by simp [audioChanCapacity])⟩

/-- Claim C8: reconciling an empty final text is a complete no-op — no
segment is appended, `lastTranscript` is unchanged, and no message is sent to
the client (the same guard also silences an empty interim text). -/
theorem c8_empty_input_noop (st : ReconcilerState) :
    processFinalTranscript st [] = (st, none) ∧
    processResult st (TranscriptResult.finalRes []) = (st, []) ∧
    processResult st (TranscriptResult.interim []) = (st, []) :=
  ⟨rfl, rfl, rfl⟩

/-- Joining a non-empty list of non-empty segments with spaces yields a
non-empty text. -/
theorem joinWithSpace_ne_nil (l : List (List Char)) (hl : l ≠ [])
    (hs : ∀ s ∈ l, s ≠ []) : joinWithSpace l ≠ [] := by
  match l with
  | [] => exact absurd rfl hl
  | [s] => exact hs s (by simp)
  | s :: t :: rest =>
    show s ++ ' ' :: joinWithSpace (t :: rest) ≠ []
    intro h
    exact List.cons_ne_nil _ _ (List.append_eq_nil.mp h).2

/-- Evaluation of `saveToS3` when the joined text is empty: no write, no
messages. -/
theorem saveToS3_empty (t : List (List Char)) (p : PutResult) (k : List Char)
    (hj : joinWithSpace t = []) : saveToS3 t p k = ⟨false, []⟩ := by
  simp [saveToS3, hj]

/-- Evaluation of `saveToS3` on a failing write of a non-empty text: one
"error" message. -/
theorem saveToS3_failure (t : List (List Char)) (k : List Char)
    (hj : joinWithSpace t ≠ []) :
    saveToS3 t PutResult.failure k =
      ⟨true, [errorMessage ("Failed to save transcription".toList)]⟩ := by
  simp [saveToS3, hj]

/-- Evaluation of `saveToS3` on a successful write of a non-empty text: one
"saved" message carrying the key. -/
theorem saveToS3_success (t : List (List Char)) (k : List Char)
    (hj : joinWithSpace t ≠ []) :
    saveToS3 t PutResult.success k = ⟨true, [savedMessage k]⟩ := by
  simp [saveToS3, hj]

/-- Claim C7: with zero accepted segments the session-end persistence is a
complete no-op — no storage write is attempted and no message (in particular
no "saved" message) is sent; conversely any "saved" message in the archiver's
output means the storage write of a non-empty joined transcript was attempted
and succeeded, and the message carries the storage key.  For the segment
lists the reconciler actually produces (all segments non-empty), having zero
segments is moreover equivalent to the joined transcript text being empty. -/
theorem c7_archiver_noop_and_saved (st : ReconcilerState) (put : PutResult)
    (key : List Char) :
    (st.transcripts = [] → sessionEndSave st put key = ⟨false, []⟩) ∧
    (∀ m ∈ (sessionEndSave st put key).messages, m.type = "saved".toList →
      put = PutResult.success ∧ joinWithSpace st.transcripts ≠ [] ∧
      (sessionEndSave st put key).putAttempted = true ∧ m = savedMessage key) ∧
    ((∀ s ∈ st.transcripts, s ≠ []) →
      (st.transcripts = [] ↔ joinWithSpace st.transcripts = [])) := by
  refine ⟨?_, ?_, ?_⟩
  · intro h
    simp [sessionEndSave, h]
  · intro m hm hty
    by_cases hl : st.transcripts.length > 0
    · rw [sessionEndSave, if_pos hl] at hm ⊢
      by_cases hj : joinWithSpace st.transcripts = []
      · rw [saveToS3_empty st.transcripts put key hj] at hm
        exact absurd hm (by simp)
      · cases put with
        | failure =>
          rw [saveToS3_failure st.transcripts key hj] at hm
          simp only [List.mem_singleton] at hm
          rw [hm] at hty
          exact absurd hty (by decide)
        | success =>
          rw [saveToS3_success st.transcripts key hj] at hm ⊢
          simp only [List.mem_singleton] at hm
          exact ⟨rfl, hj, rfl, hm⟩
    · rw [sessionEndSave, if_neg hl] at hm
      exact absurd hm (by simp)
  · intro hall
    constructor
    · intro h
      rw [h]
      rfl
    · intro hj
      by_contra hne'
      exact joinWithSpace_ne_nil st.transcripts hne' hall hj

/-- Claim C7 witness: the archiver applied to the empty segment list attempts
no storage write and sends nothing. -/
theorem c7_witness :
    sessionEndSave ⟨[], []⟩ PutResult.success ("k".toList) = ⟨false, []⟩ :=
  (c7_archiver_noop_and_saved ⟨[], []⟩ PutResult.success ("k".toList)).1 rfl

/-- Claim C9: the segment list is append-only — a single reconciler step
either leaves it unchanged or appends exactly one segment at the end, and
over any sequence of transcript results the original list survives as an
unmodified initial portion of the final list (no mutation, reordering or
removal of previously appended segments). -/
theorem c9_append_only :
    (∀ st T, (processFinalTranscript st T).1.transcripts = st.transcripts ∨
      ∃ t, (processFinalTranscript st T).1.transcripts = st.transcripts ++ [t]) ∧
    (∀ st evs, ∃ tail,
      (processEvents st evs).1.transcripts = st.transcripts ++ tail) := by
  constructor
  · intro st T
    rcases processFinalTranscript_cases st T with h | ⟨t, _, h⟩
    · left; rw [h]
    · right; exact ⟨t, by rw [h]⟩
  · intro st evs
    induction evs generalizing st with
    | nil => exact ⟨[], by simp [processEvents]⟩
    | cons ev rest ih =>
      obtain ⟨tail, htail⟩ := ih (processResult st ev).1
      rcases processResult_state_cases st ev with h | ⟨t, _, h⟩
      · exact ⟨tail, by rw [show (processEvents st (ev :: rest)).1 =
          (processEvents (processResult st ev).1 rest).1 from rfl, htail, h]⟩
      · refine ⟨t :: tail, ?_⟩
        rw [show (processEvents st (ev :: rest)).1 =
          (processEvents (processResult st ev).1 rest).1 from rfl, htail, h]
        simp

/-- Claim C10: the invariant "lastTranscript is empty iff the segment list is
empty, and a non-empty segment list ends in lastTranscript" holds in the
initial session state and is preserved by processing any transcript result. -/
theorem c10_last_accepted_invariant :
    ReconcilerInv initialSession ∧
    ∀ st ev, ReconcilerInv st → ReconcilerInv (processResult st ev).1 := by
  constructor
  · exact ⟨Iff.intro (fun _ => rfl) (fun _ => rfl), fun h => absurd rfl h⟩
  · intro st ev hInv
    rcases processResult_state_cases st ev with h | ⟨t, ht, h⟩
    · rw [h]; exact hInv
    · rw [h]
      constructor
      · constructor
        · intro hlt
          exact absurd hlt ht
        · intro htr
          exact absurd htr (by simp)
      · intro _
        simp

/-- Claim C10 witness: the invariant holds after processing one final result
from the initial state. -/
theorem c10_witness :
    ReconcilerInv (processResult initialSession
      (TranscriptResult.finalRes ("hi".toList))).1 :=
  c10_last_accepted_invariant.2 initialSession
    (TranscriptResult.finalRes ("hi".toList))
    (⟨Iff.intro (fun _ => rfl) (fun _ => rfl), fun h => absurd rfl h⟩ :
      ReconcilerInv initialSession)

/-- Error counting distributes over trace concatenation. -/
theorem countErrors_append (a b : List WSMessage) :
    countErrors (a ++ b) = countErrors a + countErrors b := by
  induction a with
  | nil => simp [countErrors]
  | cons m rest ih =>
    show (if m.type = "error".toList then 1 else 0) + countErrors (rest ++ b) = _
    rw [ih]
    show _ = (if m.type = "error".toList then 1 else 0) + countErrors rest + countErrors b
    omega

/-- Relaying one transcript result never produces an "error" message. -/
theorem countErrors_processResult (st : ReconcilerState) (ev : TranscriptResult) :
    countErrors (processResult st ev).2 = 0 := by
  cases ev with
  | interim t =>
    by_cases h : t = []
    · simp [processResult, h, countErrors]
    · rw [show (processResult st (.interim t)).2 = [interimMessage t] by
        simp [processResult, h]]
      show (if ("partial".toList : List Char) = "error".toList then 1 else 0) + 0 = 0
      rw [if_neg (by decide)]
  | finalRes t =>
    cases h : (processFinalTranscript st t).2 with
    | none => simp [processResult, h, countErrors]
    | some u =>
      rw [show (processResult st (.finalRes t)).2 = [finalMessage u] by
        simp [processResult, h]]
      show (if ("final".toList : List Char) = "error".toList then 1 else 0) + 0 = 0
      rw [if_neg (by decide)]

/-- The whole event-relay trace contains no "error" messages. -/
theorem countErrors_processEvents (st : ReconcilerState) (evs : List TranscriptResult) :
    countErrors (processEvents st evs).2 = 0 := by
  induction evs generalizing st with
  | nil => rfl
  | cons ev rest ih =>
    show countErrors ((processResult st ev).2 ++
      (processEvents (processResult st ev).1 rest).2) = 0
    rw [countErrors_append, countErrors_processResult, ih]

/-- Every segment the reconciler ever stores is non-empty (accepted texts are
guarded against emptiness). -/
theorem processEvents_nonempty_segments (st : ReconcilerState)
    (evs : List TranscriptResult) (h : ∀ s ∈ st.transcripts, s ≠ []) :
    ∀ s ∈ (processEvents st evs).1.transcripts, s ≠ [] := by
  induction evs generalizing st with
  | nil => exact h
  | cons ev rest ih =>
    show ∀ s ∈ (processEvents (processResult st ev).1 rest).1.transcripts, s ≠ []
    apply ih
    rcases processResult_state_cases st ev with he | ⟨t, ht, he⟩
    · rw [he]; exact h
    · rw [he]
      intro s hs
      rcases List.mem_append.mp hs with h1 | h2
      · exact h s h1
      · rw [List.mem_singleton.mp h2]; exact ht

/-- Error count of the session-end persistence step: one "error" message
exactly when there are accepted segments (all non-empty) and the storage
write fails; zero otherwise. -/
theorem countErrors_sessionEndSave (st : ReconcilerState) (put : PutResult)
    (key : List Char) (hne : ∀ s ∈ st.transcripts, s ≠ []) :
    countErrors (sessionEndSave st put key).messages =
      if st.transcripts ≠ [] ∧ put = PutResult.failure then 1 else 0 := by
  by_cases hl : st.transcripts = []
  · rw [sessionEndSave, if_neg (by simp [hl]), if_neg (by simp [hl])]
    rfl
  · have hj : joinWithSpace st.transcripts ≠ [] :=
      joinWithSpace_ne_nil st.transcripts hl hne
    rw [sessionEndSave, if_pos (List.length_pos.mpr hl)]
    cases put with
    | failure =>
      rw [saveToS3_failure st.transcripts key hj, if_pos ⟨hl, rfl⟩]
      show (if ("error".toList : List Char) = "error".toList then 1 else 0) + 0 = 1
      rw [if_pos rfl]
    | success =>
      rw [saveToS3_success st.transcripts key hj,
        if_neg (by rintro ⟨-, h⟩; exact PutResult.noConfusion h)]
      show (if ("saved".toList : List Char) = "error".toList then 1 else 0) + 0 = 0
      rw [if_neg (by decide)]

/-- Claim C4 counterexample: not every fatal condition produces an error
message.  In a session whose audio-forward loop hits a send transport failure
(its run ends with `sendFailed`), the client receives ZERO "error"-typed
messages before the connection closes — the failing branch at main.go line
371 only logs and returns, and no other component reports the fault. -/
theorem c4_counterexample :
    (sendAudioRun [SelectOutcome.frame [1] false]).2 = LoopExit.sendFailed ∧
    countErrors (sessionMessages
      ⟨true, [SelectOutcome.frame [1] false], [], PutResult.success, []⟩) = 0 :=
  ⟨rfl, rfl⟩

/-- Claim C4 (amended): the number of "error" messages a session sends is 1
when the recognition stream fails to start, 1 when segments were accepted and
the storage write fails, and 0 otherwise; in particular a send transport
failure in the audio-forward loop contributes no error message (it is only
logged), so that fatal path sends zero rather than exactly one. -/
theorem c4_error_message_count (r : SessionRun) :
    countErrors (sessionMessages r) =
      if r.startOk then
        (if (processEvents initialSession r.results).1.transcripts ≠ [] ∧
            r.put = PutResult.failure then 1 else 0)
      else 1 := by
  by_cases hs : r.startOk = true
  · rw [sessionMessages, if_pos hs, if_pos hs, countErrors_append,
      countErrors_processEvents,
      countErrors_sessionEndSave _ _ _
        (processEvents_nonempty_segments initialSession r.results
          (by intro s hs'; exact absurd hs' (by simp [initialSession])))]
    omega
  · rw [sessionMessages, if_neg hs, if_neg hs]
    show (if ("error".toList : List Char) = "error".toList then 1 else 0) + 0 = 1
    rw [if_pos rfl]

/-- Claim C5 counterexample: it is not the case that every complete execution
in which the audio queue is closed sends the end-of-stream marker.  The
execution in which the loop's send of a frame fails (a well-formed run: it
never observes closure and it does return) while the producer has closed the
queue sends zero empty-payload markers. -/
theorem c5_counterexample :
    ¬ ∀ (queueClosed : Bool) (outs : List SelectOutcome),
        AudioRunWf queueClosed outs → queueClosed = true →
        countEmptyPayload (sendAudioRun outs).1 = 1 := by
  intro h
  have hwf : AudioRunWf true [SelectOutcome.frame [1] false] := by
    constructor
    · intro _; rfl
    · decide
  have hone := h true [SelectOutcome.frame [1] false] hwf rfl
  exact absurd hone (by decide)

/-- Claim C5 (amended): in every execution in which the consumer actually
observes the queue closure (its run ends with `sawClosed`) and all received
frames are non-empty, the empty-payload end-of-stream marker is sent exactly
once and it is the last send — no further sends happen after it.  Executions
that exit early (send transport failure, done signal, cancellation) never
reach the marker even if the queue is closed. -/
theorem c5_marker_exactly_once (outs : List SelectOutcome)
    (hfr : framesNonEmpty outs = true)
    (hexit : (sendAudioRun outs).2 = LoopExit.sawClosed) :
    countEmptyPayload (sendAudioRun outs).1 = 1 ∧
    (sendAudioRun outs).1.getLast? = some ([] : AudioFrame) := by
  induction outs with
  | nil => exact LoopExit.noConfusion hexit
  | cons o rest ih =>
    cases o with
    | closed => exact ⟨rfl, rfl⟩
    | doneSig => exact LoopExit.noConfusion hexit
    | ctxDone => exact LoopExit.noConfusion hexit
    | frame f ok =>
      cases ok with
      | false => exact LoopExit.noConfusion hexit
      | true =>
        have hfr2 : (decide (f ≠ []) && framesNonEmpty rest) = true := hfr
        have hf : f ≠ [] := by
          have := (Bool.and_eq_true_iff.mp hfr2).1
          exact of_decide_eq_true this
        have hfr' : framesNonEmpty rest = true := (Bool.and_eq_true_iff.mp hfr2).2
        obtain ⟨h1, h2⟩ := ih hfr' hexit
        constructor
        · show (if f = [] then 1 else 0) +
            countEmptyPayload (sendAudioRun rest).1 = 1
          rw [if_neg hf, h1]
        · show (f :: (sendAudioRun rest).1).getLast? = some []
          cases hsends : (sendAudioRun rest).1 with
          | nil =>
            rw [hsends] at h2
            exact absurd h2 (by simp)
          | cons a as =>
            rw [hsends] at h2
            rw [List.getLast?_cons_cons]
            exact h2

/-- Claim C5 witness: one successful non-empty frame followed by the observed
closure yields exactly one marker send, as the final send. -/
theorem c5_witness :
    countEmptyPayload
      (sendAudioRun [SelectOutcome.frame [1] true, SelectOutcome.closed]).1 = 1 ∧
    (sendAudioRun [SelectOutcome.frame [1] true,
      SelectOutcome.closed]).1.getLast? = some ([] : AudioFrame) :=
  c5_marker_exactly_once [SelectOutcome.frame [1] true, SelectOutcome.closed]
    (by decide) (by decide)
